import Mathlib

set_option autoImplicit false

/-!
Shallow embedding of the `tatted` e-paper display driver library
(`libtatted`): the nearest-color quantizer (`colormap/inky_map.rs`,
`colormap/mono_map.rs`), the 2-bit pixel packer and JD79668 protocol driver
(`jd79668.rs`), the EEPROM record classifier (`eeprom.rs`) and the image
preprocessor (`image.rs`), together with theorems settling the spec claims.
-/

/-- An RGB color with 8-bit channels, as `image::Rgb<u8>`; channels are
naturals, with `< 256` hypotheses where the u8 range matters. -/
structure Rgb where
  r : Nat
  g : Nat
  b : Nat
deriving DecidableEq

/-- The initial `best_distance` used by `index_of`: `i32::MAX`. -/
def i32_max : Int := 2147483647

/-- Squared Euclidean RGB distance, computed in `i32` as in
`InkyFourColorMap::index_of` / `MonoColorMap::index_of`:
per-channel differences squared and summed. -/
def sqDist (c p : Rgb) : Int :=
  let dr : Int := (c.r : Int) - (p.r : Int)
  let dg : Int := (c.g : Int) - (p.g : Int)
  let db : Int := (c.b : Int) - (p.b : Int)
  dr ^ 2 + dg ^ 2 + db ^ 2

/-- The scan loop of `index_of`: iterate over the palette with a running
index, keeping the first entry whose distance is strictly smaller than the
best seen so far. -/
def index_of_go (c : Rgb) : List Rgb → Nat → Nat → Int → Nat
  | [], _, best_index, _ => best_index
  | p :: rest, index, best_index, best_distance =>
    if sqDist c p < best_distance then
      index_of_go c rest (index + 1) index (sqDist c p)
    else
      index_of_go c rest (index + 1) best_index best_distance

/-- `index_of` from the colormaps: nearest palette entry by squared RGB
distance, starting from `best_index = 0`, `best_distance = i32::MAX`.
Both `InkyFourColorMap` and `MonoColorMap` use this identical loop,
differing only in the palette iterated. -/
def index_of (palette : List Rgb) (c : Rgb) : Nat :=
  index_of_go c palette 0 0 i32_max

def black : Rgb := ⟨0, 0, 0⟩
def white : Rgb := ⟨255, 255, 255⟩
def yellow : Rgb := ⟨255, 255, 0⟩
def red : Rgb := ⟨255, 0, 0⟩

/-- `InkyFourColorPalette` in declaration order Black, White, Yellow, Red. -/
def four_palette : List Rgb := [black, white, yellow, red]

/-- `MonoColorPalette` in declaration order Black, White. -/
def mono_palette : List Rgb := [black, white]

/-- `InkyFourColorMap::index_of`. -/
def inky_index_of (c : Rgb) : Nat := index_of four_palette c

/-- `MonoColorMap::index_of`. -/
def mono_index_of (c : Rgb) : Nat := index_of mono_palette c

/-- `InkyFourColorMap::lookup`, via `TryFrom<usize> for InkyFourColorPalette`:
valid indices 0..=3 yield the palette color, anything else `None`. -/
def inky_lookup (index : Nat) : Option Rgb :=
  if index = 0 then some black
  else if index = 1 then some white
  else if index = 2 then some yellow
  else if index = 3 then some red
  else none

/-- `MonoColorMap::lookup`, via `TryFrom<usize> for MonoColorPalette`. -/
def mono_lookup (index : Nat) : Option Rgb :=
  if index = 0 then some black
  else if index = 1 then some white
  else none

/-- Total view of `lookup(i).expect(..)`: the `None` branch is unreachable
at each use because every stored index is `< 4`. -/
def inky_lookup_or_black (index : Nat) : Rgb :=
  (inky_lookup index).getD black

/-- Resolution in pixels, `Resolution` from `lib.rs`. -/
structure Resolution where
  width : Nat
  height : Nat
deriving DecidableEq

/-- `InkyError` from `error.rs`; payloads of external error wrappers
(`gpiocdev::Error`, `std::io::Error`, `image::ImageError`) are modelled as
their display strings. `BusyTimeout` carries the timeout in milliseconds. -/
inductive InkyError
  | BusyTimeout (timeout_ms : Nat)
  | GpioError (msg : String)
  | SpiIoError (msg : String)
  | Uninitialized
  | InvalidPalettization (index_min index_max : Nat)
  | InvalidBufferLength (expected found : Nat)
  | ImageError (msg : String)
  | UnsupportedResolution (expected found : Resolution)
  | OutOfPaletteError
deriving DecidableEq

/-- One packed byte of `InkyJd79668::pack_buffer`:
`(p0 << 6) | (p1 << 4) | (p2 << 2) | p3` in `u8` arithmetic. -/
def packByte (p0 p1 p2 p3 : Nat) : Nat :=
  ((p0 <<< 6) ||| (p1 <<< 4) ||| (p2 <<< 2) ||| p3) % 256

/-- The `pixels.chunks(4)` loop of `pack_buffer`: each group of up to four
pixels becomes one byte, missing trailing slots defaulting to 0
(`chunk.get(i).unwrap_or(&0)`). -/
def packChunks : List Nat → List Nat
  | [] => []
  | [p0] => [packByte p0 0 0 0]
  | [p0, p1] => [packByte p0 p1 0 0]
  | [p0, p1, p2] => [packByte p0 p1 p2 0]
  | p0 :: p1 :: p2 :: p3 :: rest => packByte p0 p1 p2 p3 :: packChunks rest

/-- `InkyJd79668::pack_buffer`: reject any pixel index `≥ 4` with
`InvalidPalettization { index_min: 0, index_max: 3 }` before packing,
otherwise pack 4 pixels per byte most-significant-pixel first. -/
def pack_buffer (pixels : List Nat) : Except InkyError (List Nat) :=
  if !(pixels.all fun p => decide (p < 4)) then
    .error (.InvalidPalettization 0 3)
  else
    .ok (packChunks pixels)

/-- `is_blank_eeprom` from `eeprom.rs`: every byte is 0xFF or 0x00. -/
def is_blank_eeprom (data : List Nat) : Bool :=
  data.all fun b => b == 0xFF || b == 0x00

/-- The little-endian u16 at bytes [0:2): `u16::from_le_bytes([data[0], data[1]])`. -/
def eepromWidth (data : List Nat) : Nat :=
  data.getD 0 0 + 256 * data.getD 1 0

/-- The little-endian u16 at bytes [2:4): `u16::from_le_bytes([data[2], data[3]])`. -/
def eepromHeight (data : List Nat) : Nat :=
  data.getD 2 0 + 256 * data.getD 3 0

/-- `EepromInfo` from `eeprom.rs`. -/
structure EepromInfo where
  width : Nat
  height : Nat
  color : Nat
  pcb_variant : Nat
  display_variant : Nat
deriving DecidableEq

/-- `parse_eeprom`: little-endian width/height, single-byte color, pcb
variant and display variant; width/height of 0 or 0xFFFF, or display variant
0xFF, are rejected with the corresponding reason string. -/
def parse_eeprom (data : List Nat) : Except String EepromInfo :=
  let width := eepromWidth data
  let height := eepromHeight data
  let color := data.getD 4 0
  let pcb_variant := data.getD 5 0
  let display_variant := data.getD 6 0
  if width = 0 ∨ height = 0 ∨ width = 65535 ∨ height = 65535 then
    .error ("width/height out of range (width=" ++ toString width ++
      ", height=" ++ toString height ++ ")")
  else if display_variant = 255 then
    .error "display variant invalid (255)"
  else
    .ok ⟨width, height, color, pcb_variant, display_variant⟩

/-- `I2cProbeStatus` from `eeprom.rs`. -/
inductive I2cProbeStatus
  | Found (info : EepromInfo)
  | Blank
  | Invalid (reason : String)
  | Unavailable
  | Error (msg : String)
deriving DecidableEq

/-- The classification `read_eeprom` applies to a successfully read 29-byte
buffer (the I2C open/write/read steps are hardware I/O preceding this and
yield `Unavailable`/`Error` on their own failures): blank check first, then
parse, parse failure becoming `Invalid`. -/
def classify_eeprom (buf : List Nat) : I2cProbeStatus :=
  if is_blank_eeprom buf then
    .Blank
  else
    match parse_eeprom buf with
    | .ok parsed => .Found parsed
    | .error reason => .Invalid reason

/-- `DisplaySpec` from `eeprom.rs`; only the JD79668 variant is modelled by
the code (the others are commented out). -/
inductive DisplaySpec
  | Jd79668 (width height : Nat)
deriving DecidableEq

/-- `EepromInfo::display_spec`: display variant 24 maps to a JD79668 spec
with the record's width and height; every other code maps to `None`. -/
def EepromInfo.display_spec (info : EepromInfo) : Option DisplaySpec :=
  if info.display_variant = 24 then
    some (.Jd79668 info.width info.height)
  else
    none

/-- GPIO lines owned by the driver (`Jd79668Gpios`). -/
inductive GpioLine
  | chipSelect
  | dataCmd
  | reset
  | busy
deriving DecidableEq

/-- `gpiocdev::line::Value`. -/
inductive PinValue
  | Inactive
  | Active
deriving DecidableEq

/-- One observable hardware interaction of the driver. -/
inductive HwOp
  | gpioSet (line : GpioLine) (v : PinValue)
  | spiWrite (bytes : List Nat)
  | sleepMs (ms : Nat)
  | busyRead
deriving DecidableEq

/-- The device-facing state of a run: a counter indexing fallible hardware
interactions and a trace of everything sent to (or read from) the device. -/
structure HwState where
  counter : Nat
  trace : List HwOp
deriving DecidableEq

/-- The hardware environment: the outcome of the n-th fallible GPIO/SPI
interaction — an error, or success carrying the pin value observed (ignored
by writes, used by busy-pin reads). -/
def HwEnv : Type := Nat → Except InkyError PinValue

/-- Driver computations: explicit state passing over `HwState` in an
environment, failing with `InkyError` as the Rust `InkyResult` does. -/
def HwM (α : Type) : Type := HwEnv → HwState → Except InkyError α × HwState

instance : Monad HwM where
  pure a := fun _ s => (.ok a, s)
  bind m f := fun env s =>
    match m env s with
    | (.ok a, s') => f a env s'
    | (.error e, s') => (.error e, s')

/-- Perform one fallible hardware interaction: consult the environment at
the current counter; on success record the op in the trace. On failure the
op takes no effect and the error propagates (`?` in Rust). -/
def hwOp (op : HwOp) : HwM PinValue := fun env s =>
  match env s.counter with
  | .ok v => (.ok v, ⟨s.counter + 1, s.trace ++ [op]⟩)
  | .error e => (.error e, s)

/-- `Request::set_lone_value`. -/
def gpioSet (line : GpioLine) (v : PinValue) : HwM Unit := do
  let _ ← hwOp (.gpioSet line v)
  pure ()

/-- `Spidev::write_all`. -/
def spiWrite (bytes : List Nat) : HwM Unit := do
  let _ ← hwOp (.spiWrite bytes)
  pure ()

/-- `thread::sleep`: infallible, recorded in the trace. -/
def sleepMs (ms : Nat) : HwM Unit := fun _ s =>
  (.ok (), ⟨s.counter, s.trace ++ [.sleepMs ms]⟩)

/-- The chunked SPI write of `send_command` for payloads over
`SPI_CHUNK_SIZE = 4096` bytes: `for chunk in data.chunks(4096)`. -/
def spiChunks (data : List Nat) : HwM Unit :=
  match data with
  | [] => pure ()
  | x :: rest => do
    spiWrite ((x :: rest).take 4096)
    spiChunks (rest.drop 4095)
termination_by data.length
decreasing_by simp; omega

/-- The optional-data half of `send_command`: switch data/command to data
mode, settle 300ms, write the payload (in one frame when it fits). -/
def sendData (data : Option (List Nat)) : HwM Unit :=
  match data with
  | none => pure ()
  | some d => do
    gpioSet .dataCmd .Active
    sleepMs 300
    if d.length ≤ 4096 then
      spiWrite d
    else
      spiChunks d

/-- `InkyJd79668::send_command`: chip-select and data/command into command
mode, settle 300ms, write the command byte, then the optional payload, then
release chip-select and return data/command to idle. -/
def sendCommand (command : Nat) (data : Option (List Nat)) : HwM Unit := do
  gpioSet .chipSelect .Inactive
  gpioSet .dataCmd .Inactive
  sleepMs 300
  spiWrite [command]
  sendData data
  gpioSet .chipSelect .Active
  gpioSet .dataCmd .Inactive

/-- The polling loop of `InkyJd79668::busy_wait`, with elapsed wall-clock
time modelled as 10ms per completed sleep (`k` sleeps so far): while the
elapsed time is under the timeout, read the busy pin; Active means ready
(return at once), Inactive means busy (sleep 10ms and poll again); once
elapsed reaches the timeout fail with `BusyTimeout` carrying it. The
`fuel` argument exists only to make the loop structurally recursive: it
starts at `timeout_ms + 1`, which strictly exceeds the possible number of
iterations (each iteration needs `10 * k < timeout_ms` and increments
`k`), and were it ever 0 the elapsed-time check would already be false, so
the `fuel = 0` branch returns the same `BusyTimeout` the loop exit does
and the fuel never alters behaviour. -/
def busyWaitGo (timeout_ms : Nat) (env : HwEnv) :
    Nat → Nat → HwState → Except InkyError Unit × HwState
  | 0, _, s => (.error (.BusyTimeout timeout_ms), s)
  | fuel + 1, k, s =>
    if 10 * k < timeout_ms then
      match hwOp .busyRead env s with
      | (.error e, s') => (.error e, s')
      | (.ok .Active, s') => (.ok (), s')
      | (.ok .Inactive, s') =>
        busyWaitGo timeout_ms env fuel (k + 1) ⟨s'.counter, s'.trace ++ [.sleepMs 10]⟩
    else
      (.error (.BusyTimeout timeout_ms), s)

/-- `InkyJd79668::busy_wait` with the timeout in milliseconds. -/
def busyWait (timeout_ms : Nat) : HwM Unit := fun env s =>
  busyWaitGo timeout_ms env (timeout_ms + 1) 0 s

/-- `InkyJd79668::send_command_wait`. -/
def sendCommandWait (command : Nat) (data : Option (List Nat))
    (timeout_ms : Nat) : HwM Unit := do
  sendCommand command data
  busyWait timeout_ms

/-- `InkyJd79668::hardware_reset`: reset inactive, hold 100ms, reset
active, hold 100ms. -/
def hardwareReset : HwM Unit := do
  gpioSet .reset .Inactive
  sleepMs 100
  gpioSet .reset .Active
  sleepMs 100

/-- The body of `InkyJd79668::initialize` up to (not including) the
`self.initialized = true` assignment: hardware reset, busy-wait with a 1s
timeout, then the fixed command/data sequence with the exact bytes of the
source (panel setting 0x00, booster soft start 0x06, VCOM interval 0x50,
resolution setting 0x61 with the 4 start-address bytes, and the vendor
tuning registers). -/
def initSeq : HwM Unit := do
  hardwareReset
  busyWait 1000
  sendCommand 0x4D (some [0x78])
  sendCommand 0x00 (some [0x0F, 0x29])
  sendCommand 0x06 (some [0x0d, 0x12, 0x24, 0x25, 0x12, 0x29, 0x10])
  sendCommand 0x30 (some [0x08])
  sendCommand 0x50 (some [0x37])
  sendCommand 0x61 (some [0x01, 0x90, 0x01, 0x2C])
  sendCommand 0xae (some [0xcf])
  sendCommand 0xb0 (some [0x13])
  sendCommand 0xbd (some [0x07])
  sendCommand 0xbe (some [0xfe])
  sendCommand 0xE9 (some [0x01])

/-- The driver-local state of `InkyJd79668`: the configured display
resolution and the `initialized` flag (false on construction). -/
structure Driver where
  display_res : Resolution
  initialized : Bool
deriving DecidableEq

/-- `InkyJd79668::initialize`: run the reset/busy-wait/command sequence;
only after every step succeeds is `self.initialized = true` executed — an
early `?` return leaves the driver fields untouched. -/
def initDriver (env : HwEnv) (d : Driver) (s : HwState) :
    Except InkyError Unit × Driver × HwState :=
  match initSeq env s with
  | (.ok _, s') => (.ok (), { d with initialized := true }, s')
  | (.error e, s') => (.error e, d, s')

/-- Modelled from the spec: `InkyImage` is referenced by
`InkyJd79668::show` but its definition is not under `src/` (only this
caller is); per the spec's IndexedImage/RenderableImage it is an indexed
image carrying its resolution and its row-major palette indices
(`img.resolution()` and `img.index_img().into_vec()`). -/
structure InkyImage where
  resolution : Resolution
  pixels : List Nat
deriving DecidableEq

/-- `InkyJd79668::show`: fail `Uninitialized` unless initialized; fail
`UnsupportedResolution { expected, found }` unless the image resolution
equals the configured one; then pack the buffer and run the fixed
data-start-transmission / power-on / refresh / power-off / deep-sleep
sequence, each waited command with a 40s (40000ms) timeout. -/
def showImage (env : HwEnv) (d : Driver) (img : InkyImage) (s : HwState) :
    Except InkyError Unit × HwState :=
  if d.initialized = false then
    (.error .Uninitialized, s)
  else if img.resolution ≠ d.display_res then
    (.error (.UnsupportedResolution d.display_res img.resolution), s)
  else
    match pack_buffer img.pixels with
    | .error e => (.error e, s)
    | .ok packed =>
      (do
        sendCommand 0x10 (some packed)
        sendCommandWait 0x04 none 40000
        sendCommandWait 0x12 (some [0x00]) 40000
        sendCommandWait 0x02 (some [0x00]) 40000
        sendCommandWait 0x07 (some [0xa5]) 40000) env s

/-- A decoded source raster (`DynamicImage` after `to_rgb8`): u32
dimensions and a pixel function. -/
structure Raster where
  width : Nat
  height : Nat
  pixel : Nat → Nat → Rgb

/-- `ImagePreProcessor<InkyFourColorMap>`: the configured target
resolution (the colormap field is the unit struct `InkyFourColorMap`). -/
structure PreProcessor where
  desired_res : Resolution

/-- `IndexImage` as produced by `prepare`/`prepare_dither`: the index image
and its RGB reconstruction for preview, as pixel functions. -/
structure IndexImage where
  index_img : Nat → Nat → Nat
  pixel_img : Nat → Nat → Rgb

/-- `image::imageops::index_colors` specialised to `InkyFourColorMap`:
every pixel replaced by its palette index. -/
def index_colors (img : Raster) : Nat → Nat → Nat :=
  fun x y => inky_index_of (img.pixel x y)

/-- Clamp an i32 channel value back into u8 range. -/
def clamp255 (v : Int) : Nat :=
  (max 0 (min 255 v)).toNat

/-- Modelled from the spec: one error-diffusion update of Floyd–Steinberg
dithering (the implementation lives in the external `image` crate, not
under `src/`): add the scaled quantization error to a neighbour pixel,
clamped to u8 range. -/
def addErr (p : Rgb) (er eg eb num : Int) : Rgb :=
  ⟨clamp255 ((p.r : Int) + er * num / 16),
   clamp255 ((p.g : Int) + eg * num / 16),
   clamp255 ((p.b : Int) + eb * num / 16)⟩

/-- Read a pixel of the row-major working buffer. -/
def getPix (w : Nat) (buf : List Rgb) (x y : Nat) : Rgb :=
  buf.getD (y * w + x) black

/-- Write a pixel of the row-major working buffer. -/
def setPix (w : Nat) (buf : List Rgb) (x y : Nat) (p : Rgb) : List Rgb :=
  buf.set (y * w + x) p

/-- Modelled from the spec: one pixel step of Floyd–Steinberg dithering —
replace the pixel by its nearest palette color and distribute the
quantization error with weights 7/16 right, 3/16 lower-left, 5/16 lower,
1/16 lower-right, clamped at the image bounds. -/
def fsStep (w h : Nat) (buf : List Rgb) (pos : Nat) : List Rgb :=
  let x := pos % w
  let y := pos / w
  let old := getPix w buf x y
  let new := inky_lookup_or_black (inky_index_of old)
  let er : Int := (old.r : Int) - (new.r : Int)
  let eg : Int := (old.g : Int) - (new.g : Int)
  let eb : Int := (old.b : Int) - (new.b : Int)
  let buf1 := setPix w buf x y new
  let buf2 := if x + 1 < w then
      setPix w buf1 (x + 1) y (addErr (getPix w buf1 (x + 1) y) er eg eb 7)
    else buf1
  let buf3 := if 0 < x ∧ y + 1 < h then
      setPix w buf2 (x - 1) (y + 1) (addErr (getPix w buf2 (x - 1) (y + 1)) er eg eb 3)
    else buf2
  let buf4 := if y + 1 < h then
      setPix w buf3 x (y + 1) (addErr (getPix w buf3 x (y + 1)) er eg eb 5)
    else buf3
  if x + 1 < w ∧ y + 1 < h then
    setPix w buf4 (x + 1) (y + 1) (addErr (getPix w buf4 (x + 1) (y + 1)) er eg eb 1)
  else buf4

/-- Modelled from the spec: `image::imageops::dither` (external to `src/`)
— Floyd–Steinberg error diffusion over the raster in row-major order
against the active palette. -/
def fsDither (img : Raster) : Raster :=
  let w := img.width
  let h := img.height
  let start := (List.range (w * h)).map fun pos => img.pixel (pos % w) (pos / w)
  let final := (List.range (w * h)).foldl (fsStep w h) start
  ⟨w, h, fun x y => final.getD (y * w + x) (img.pixel x y)⟩

/-- `ImagePreProcessor::<InkyFourColorMap>::prepare`: the input resolution
is computed as `Resolution::new(img.width() as u16, img.height() as u16)`
— the `as u16` casts truncate the u32 dimensions modulo 65536 — and
compared against the configured resolution; a mismatch is rejected with
`UnsupportedResolution`, otherwise the raster is indexed through the
colormap and reconstructed through `lookup` for preview. -/
def prepare (pp : PreProcessor) (img : Raster) :
    Except InkyError IndexImage :=
  let input_res : Resolution := ⟨img.width % 65536, img.height % 65536⟩
  if input_res ≠ pp.desired_res then
    .error (.UnsupportedResolution pp.desired_res input_res)
  else
    let idx := index_colors img
    .ok ⟨idx, fun x y => inky_lookup_or_black (idx x y)⟩

/-- `ImagePreProcessor::<InkyFourColorMap>::prepare_dither`: the same
truncated resolution check, then Floyd–Steinberg dithering before
indexing. -/
def prepare_dither (pp : PreProcessor) (img : Raster) :
    Except InkyError IndexImage :=
  let input_res : Resolution := ⟨img.width % 65536, img.height % 65536⟩
  if input_res ≠ pp.desired_res then
    .error (.UnsupportedResolution pp.desired_res input_res)
  else
    let dithered := fsDither img
    let idx := index_colors dithered
    .ok ⟨idx, fun x y => inky_lookup_or_black (idx x y)⟩

/-- An environment whose very first hardware interaction fails with a GPIO
error (used to exercise failing runs). -/
def envFail : HwEnv := fun _ => .error (.GpioError "gpio failure")

/-- An environment whose busy pin always reads ready and where no
interaction ever fails. -/
def envReady : HwEnv := fun _ => .ok .Active

/-- An environment whose busy pin always reads busy and where no
interaction ever fails. -/
def envBusy : HwEnv := fun _ => .ok .Inactive

/-- A driver that has already been initialized successfully. -/
def dInited : Driver := ⟨⟨400, 300⟩, true⟩

/-- A freshly constructed driver. -/
def dFresh : Driver := ⟨⟨400, 300⟩, false⟩

/-- The empty starting hardware state. -/
def s0 : HwState := ⟨0, []⟩

/-- A 29-byte buffer mixing 0x00 and 0xFF bytes: its parsed width is 0 and
its display variant is 0xFF, yet every byte individually is blank. -/
def mixedBuf : List Nat := [0, 0, 255, 255, 0, 0, 255] ++ List.replicate 22 0

/-- A preprocessor configured for the 400x300 display. -/
def pp400 : PreProcessor := ⟨⟨400, 300⟩⟩

/-- An all-black raster whose width 65936 = 400 + 65536 collides with 400
after the `as u16` truncation. -/
def hugeRaster : Raster := ⟨65936, 300, fun _ _ => black⟩

/-- An all-black raster of an honestly mismatched resolution. -/
def smallRaster : Raster := ⟨100, 100, fun _ _ => black⟩

/-- An all-black raster at exactly the display resolution. -/
def okRaster : Raster := ⟨400, 300, fun _ _ => black⟩

theorem getD_lt_four {l : List Nat} (h : ∀ p ∈ l, p < 4) (n : Nat) :
    l.getD n 0 < 4 := by
  induction l generalizing n with
  | nil => simp [List.getD]
  | cons a t ih =>
    cases n with
    | zero => exact h a (List.mem_cons_self a t)
    | succ m => exact ih (fun p hp => h p (List.mem_cons_of_mem a hp)) m

theorem packByte_eq {p0 p1 p2 p3 : Nat} (h0 : p0 < 4) (h1 : p1 < 4)
    (h2 : p2 < 4) (h3 : p3 < 4) :
    packByte p0 p1 p2 p3 = (p0 <<< 6) ||| (p1 <<< 4) ||| (p2 <<< 2) ||| p3 := by
  interval_cases p0 <;> interval_cases p1 <;> interval_cases p2 <;>
    interval_cases p3 <;> rfl

theorem packChunks_length (l : List Nat) :
    (packChunks l).length = (l.length + 3) / 4 := by
  induction l using packChunks.induct <;> simp [packChunks, *] <;> omega

theorem getD_cons_add4 (a b c d : Nat) (l : List Nat) (n : Nat) :
    (a :: b :: c :: d :: l).getD (n + 4) 0 = l.getD n 0 := by
  have h : n + 4 = (((n + 1) + 1) + 1) + 1 := by omega
  rw [h, List.getD_cons_succ, List.getD_cons_succ, List.getD_cons_succ,
    List.getD_cons_succ]

theorem packChunks_getD (l : List Nat) :
    ∀ i, i < (packChunks l).length →
      (packChunks l).getD i 0 =
        packByte (l.getD (4 * i) 0) (l.getD (4 * i + 1) 0)
          (l.getD (4 * i + 2) 0) (l.getD (4 * i + 3) 0) := by
  induction l using packChunks.induct with
  | case1 => intro i hi; simp [packChunks] at hi
  | case2 p0 =>
    intro i hi
    simp [packChunks] at hi
    subst hi
    simp [packChunks, List.getD]
  | case3 p0 p1 =>
    intro i hi
    simp [packChunks] at hi
    subst hi
    simp [packChunks, List.getD]
  | case4 p0 p1 p2 =>
    intro i hi
    simp [packChunks] at hi
    subst hi
    simp [packChunks, List.getD]
  | case5 p0 p1 p2 p3 rest ih =>
    intro i hi
    cases i with
    | zero => simp [packChunks, List.getD]
    | succ i =>
      have hb : i < (packChunks rest).length := by
        simp [packChunks] at hi; omega
      rw [show 4 * (i + 1) = 4 * i + 4 by ring,
        show 4 * i + 4 + 1 = (4 * i + 1) + 4 by ring,
        show 4 * i + 4 + 2 = (4 * i + 2) + 4 by ring,
        show 4 * i + 4 + 3 = (4 * i + 3) + 4 by ring,
        getD_cons_add4, getD_cons_add4, getD_cons_add4, getD_cons_add4]
      simpa [packChunks, List.getD_cons_succ] using ih i hb

/-- C1: pack_buffer on a list of pixel indices all < 4 returns a byte
sequence of length ceil(pixel_count/4) in which each group of 4 consecutive
indices [p0,p1,p2,p3] becomes the byte (p0<<6)|(p1<<4)|(p2<<2)|p3 (first
pixel in the two most-significant bits), a trailing incomplete group padded
with index 0 in its missing low-order slots; in particular
pack([0,1,2,3]) = [0x1B] and pack([1]) = [0x40]. -/
theorem pack_buffer_packs (pixels : List Nat) (h : ∀ p ∈ pixels, p < 4) :
    (∃ out, pack_buffer pixels = .ok out ∧
      out.length = (pixels.length + 3) / 4 ∧
      ∀ i, i < out.length →
        out.getD i 0 = ((pixels.getD (4 * i) 0) <<< 6) |||
          ((pixels.getD (4 * i + 1) 0) <<< 4) |||
          ((pixels.getD (4 * i + 2) 0) <<< 2) |||
          (pixels.getD (4 * i + 3) 0)) ∧
    pack_buffer [0, 1, 2, 3] = .ok [0x1B] ∧
    pack_buffer [1] = .ok [0x40] := by
  have hall : pixels.all (fun p => decide (p < 4)) = true := by
    simpa [List.all_eq_true] using h
  refine ⟨⟨packChunks pixels, ?_, packChunks_length pixels, ?_⟩, rfl, rfl⟩
  · simp [pack_buffer, hall]
  · intro i hi
    rw [packChunks_getD pixels i hi]
    exact packByte_eq (getD_lt_four h _) (getD_lt_four h _)
      (getD_lt_four h _) (getD_lt_four h _)

theorem pack_buffer_packs_witness :
    ∃ out, pack_buffer [0, 1, 2, 3] = .ok out ∧
      out.length = (4 + 3) / 4 ∧
      ∀ i, i < out.length →
        out.getD i 0 = (([0, 1, 2, 3].getD (4 * i) 0) <<< 6) |||
          (([0, 1, 2, 3].getD (4 * i + 1) 0) <<< 4) |||
          (([0, 1, 2, 3].getD (4 * i + 2) 0) <<< 2) |||
          ([0, 1, 2, 3].getD (4 * i + 3) 0) :=
  (pack_buffer_packs [0, 1, 2, 3] (by decide)).1

/-- C2: pack_buffer fails with the invalid-palettization error if and only
if some input index is ≥ 4 (the codec is fixed at 2-bit width regardless of
palette, so lists of only 0/1 always pack), the error is always
InvalidPalettization with bounds [0, 3], and the guard runs before any
packed output is produced. -/
theorem pack_buffer_rejects (pixels : List Nat) :
    (pack_buffer pixels = .error (.InvalidPalettization 0 3) ↔
      ∃ p ∈ pixels, 4 ≤ p) ∧
    (∀ e, pack_buffer pixels = .error e → e = .InvalidPalettization 0 3) ∧
    ((∀ p ∈ pixels, p ≤ 1) → ∃ out, pack_buffer pixels = .ok out) := by
  by_cases hall : ∀ p ∈ pixels, p < 4
  · have hb : pixels.all (fun p => decide (p < 4)) = true := by
      simpa [List.all_eq_true] using hall
    refine ⟨⟨fun hc => ?_, ?_⟩, fun e he => ?_,
      fun _ => ⟨packChunks pixels, ?_⟩⟩
    · simp [pack_buffer, hb] at hc
    · rintro ⟨p, hp, h4⟩
      exact absurd (hall p hp) (by omega)
    · simp [pack_buffer, hb] at he
    · simp [pack_buffer, hb]
  · have hb : pixels.all (fun p => decide (p < 4)) = false := by
      rw [Bool.eq_false_iff]
      intro hc
      exact hall (by simpa [List.all_eq_true] using hc)
    push_neg at hall
    obtain ⟨p, hp, h4⟩ := hall
    refine ⟨⟨fun _ => ⟨p, hp, by omega⟩, fun _ => ?_⟩, fun e he => ?_,
      fun hle => absurd (hle p hp) (by omega)⟩
    · simp [pack_buffer, hb]
    · simp [pack_buffer, hb] at he
      exact he.symm

theorem pack_buffer_rejects_witness :
    pack_buffer [0, 1, 4] = .error (.InvalidPalettization 0 3) ∧
    ∃ out, pack_buffer [0, 1, 1, 0, 1] = .ok out :=
  ⟨(pack_buffer_rejects [0, 1, 4]).1.mpr (by decide),
   (pack_buffer_rejects [0, 1, 1, 0, 1]).2.2 (by decide)⟩

theorem sq_le_of_abs_le {d : Int} (h1 : -255 ≤ d) (h2 : d ≤ 255) :
    d ^ 2 ≤ 65025 := by nlinarith

theorem sqDist_lt_i32_max (c p : Rgb) (hcr : c.r < 256) (hcg : c.g < 256)
    (hcb : c.b < 256) (hpr : p.r < 256) (hpg : p.g < 256) (hpb : p.b < 256) :
    sqDist c p < i32_max := by
  have h1 : ((c.r : Int) - p.r) ^ 2 ≤ 65025 :=
    sq_le_of_abs_le (by omega) (by omega)
  have h2 : ((c.g : Int) - p.g) ^ 2 ≤ 65025 :=
    sq_le_of_abs_le (by omega) (by omega)
  have h3 : ((c.b : Int) - p.b) ^ 2 ≤ 65025 :=
    sq_le_of_abs_le (by omega) (by omega)
  simp only [sqDist, i32_max]
  linarith

theorem inky_index_of_eq (c : Rgb) (h0 : sqDist c black < i32_max) :
    inky_index_of c =
      if sqDist c white < sqDist c black then
        if sqDist c yellow < sqDist c white then
          if sqDist c red < sqDist c yellow then 3 else 2
        else if sqDist c red < sqDist c white then 3 else 1
      else
        if sqDist c yellow < sqDist c black then
          if sqDist c red < sqDist c yellow then 3 else 2
        else if sqDist c red < sqDist c black then 3 else 0 := by
  simp [inky_index_of, index_of, four_palette, index_of_go, h0]

theorem mono_index_of_eq (c : Rgb) (h0 : sqDist c black < i32_max) :
    mono_index_of c = if sqDist c white < sqDist c black then 1 else 0 := by
  simp [mono_index_of, index_of, mono_palette, index_of_go, h0]

theorem sqDist_black_lt (c : Rgb) (h1 : c.r < 256) (h2 : c.g < 256)
    (h3 : c.b < 256) : sqDist c black < i32_max :=
  sqDist_lt_i32_max c black h1 h2 h3 (by decide) (by decide) (by decide)

theorem inky_index_of_lt (c : Rgb) (h1 : c.r < 256) (h2 : c.g < 256)
    (h3 : c.b < 256) : inky_index_of c < 4 := by
  rw [inky_index_of_eq c (sqDist_black_lt c h1 h2 h3)]
  split_ifs <;> norm_num

theorem mono_index_of_lt (c : Rgb) (h1 : c.r < 256) (h2 : c.g < 256)
    (h3 : c.b < 256) : mono_index_of c < 2 := by
  rw [mono_index_of_eq c (sqDist_black_lt c h1 h2 h3)]
  split_ifs <;> norm_num

/-- C3: for every RGB color, index_of (for both the 4-color and the
monochrome colormap) returns the index of the palette entry minimizing the
sum of squared per-channel differences, ties going to the lowest index
(strict comparison, first seen kept); in particular for the 4-color palette
index_of((10,10,10))=0, index_of((250,250,240))=1, index_of((200,190,10))=2
and index_of((230,20,20))=3. -/
theorem index_of_minimizes :
    (∀ c : Rgb, c.r < 256 → c.g < 256 → c.b < 256 →
      inky_index_of c < 4 ∧
      ∀ j, j < 4 →
        sqDist c (four_palette.getD (inky_index_of c) black) ≤
          sqDist c (four_palette.getD j black) ∧
        (sqDist c (four_palette.getD j black) =
            sqDist c (four_palette.getD (inky_index_of c) black) →
          inky_index_of c ≤ j)) ∧
    (∀ c : Rgb, c.r < 256 → c.g < 256 → c.b < 256 →
      mono_index_of c < 2 ∧
      ∀ j, j < 2 →
        sqDist c (mono_palette.getD (mono_index_of c) black) ≤
          sqDist c (mono_palette.getD j black) ∧
        (sqDist c (mono_palette.getD j black) =
            sqDist c (mono_palette.getD (mono_index_of c) black) →
          mono_index_of c ≤ j)) ∧
    inky_index_of ⟨10, 10, 10⟩ = 0 ∧ inky_index_of ⟨250, 250, 240⟩ = 1 ∧
    inky_index_of ⟨200, 190, 10⟩ = 2 ∧ inky_index_of ⟨230, 20, 20⟩ = 3 := by
  refine ⟨?_, ?_, by decide, by decide, by decide, by decide⟩
  · intro c h1 h2 h3
    refine ⟨inky_index_of_lt c h1 h2 h3, ?_⟩
    intro j hj
    rw [inky_index_of_eq c (sqDist_black_lt c h1 h2 h3)]
    interval_cases j <;> split_ifs <;> simp [four_palette] <;>
      first
      | omega
      | linarith
      | (intro heq; linarith)
      | (intro heq; omega)
      | exact ⟨by linarith, fun heq => by linarith⟩
  · intro c h1 h2 h3
    refine ⟨mono_index_of_lt c h1 h2 h3, ?_⟩
    intro j hj
    rw [mono_index_of_eq c (sqDist_black_lt c h1 h2 h3)]
    interval_cases j <;> split_ifs <;> simp [mono_palette] <;>
      first
      | omega
      | linarith
      | (intro heq; linarith)
      | (intro heq; omega)
      | exact ⟨by linarith, fun heq => by linarith⟩

theorem index_of_minimizes_witness :
    sqDist ⟨10, 10, 10⟩ (four_palette.getD (inky_index_of ⟨10, 10, 10⟩) black) ≤
      sqDist ⟨10, 10, 10⟩ (four_palette.getD 2 black) :=
  ((index_of_minimizes.1 ⟨10, 10, 10⟩ (by decide) (by decide) (by decide)).2
    2 (by decide)).1

/-- C9: quantization is idempotent — for every RGB color and for both
colormaps, looking up the chosen index yields a palette color whose own
index_of is the same index, so applying map-to-nearest twice equals
applying it once. -/
theorem quantization_idempotent :
    (∀ c : Rgb, c.r < 256 → c.g < 256 → c.b < 256 →
      ∃ p, inky_lookup (inky_index_of c) = some p ∧
        inky_index_of p = inky_index_of c) ∧
    (∀ c : Rgb, c.r < 256 → c.g < 256 → c.b < 256 →
      ∃ p, mono_lookup (mono_index_of c) = some p ∧
        mono_index_of p = mono_index_of c) := by
  constructor <;> intro c h1 h2 h3
  · have h4 := inky_index_of_lt c h1 h2 h3
    have hcases : inky_index_of c = 0 ∨ inky_index_of c = 1 ∨
        inky_index_of c = 2 ∨ inky_index_of c = 3 := by omega
    rcases hcases with h | h | h | h <;> rw [h] <;> exact ⟨_, rfl, by decide⟩
  · have h4 := mono_index_of_lt c h1 h2 h3
    have hcases : mono_index_of c = 0 ∨ mono_index_of c = 1 := by omega
    rcases hcases with h | h <;> rw [h] <;> exact ⟨_, rfl, by decide⟩

theorem blank_of_all_blank {buf : List Nat}
    (h : ∀ b ∈ buf, b = 0xFF ∨ b = 0x00) : is_blank_eeprom buf = true := by
  simp only [is_blank_eeprom, List.all_eq_true]
  intro b hb
  rcases h b hb with h' | h' <;> simp [h']

theorem not_blank_of_witness {buf : List Nat}
    (h : ¬ ∀ b ∈ buf, b = 0xFF ∨ b = 0x00) : is_blank_eeprom buf = false := by
  rw [Bool.eq_false_iff]
  intro hc
  apply h
  simp only [is_blank_eeprom, List.all_eq_true] at hc
  intro b hb
  have := hc b hb
  simp at this
  omega

/-- C4: read_eeprom classifies a successfully read 29-byte buffer: all
bytes 0xFF-or-0x00 yields Blank (in particular an all-0x00 buffer);
otherwise it is parsed with little-endian u16 width in bytes [0:2) and
height in [2:4) and single bytes color/pcb-variant/display-variant at
offsets 4, 5, 6, yielding Invalid(reason) when width or height is 0 or
0xFFFF or the display variant is 0xFF and Found otherwise; and
display_spec on a Found record yields the Jd79668 DisplaySpec with the
record's width and height exactly when the display variant is 24, every
other code yielding none while still parsing as valid data. -/
theorem eeprom_classification :
    (∀ buf : List Nat, (∀ b ∈ buf, b = 0xFF ∨ b = 0x00) →
      classify_eeprom buf = .Blank) ∧
    classify_eeprom (List.replicate 29 0) = .Blank ∧
    (∀ buf : List Nat, ¬ (∀ b ∈ buf, b = 0xFF ∨ b = 0x00) →
      ((eepromWidth buf = 0 ∨ eepromHeight buf = 0 ∨
          eepromWidth buf = 65535 ∨ eepromHeight buf = 65535 ∨
          buf.getD 6 0 = 255) →
        ∃ r, classify_eeprom buf = .Invalid r) ∧
      (eepromWidth buf ≠ 0 → eepromHeight buf ≠ 0 →
        eepromWidth buf ≠ 65535 → eepromHeight buf ≠ 65535 →
        buf.getD 6 0 ≠ 255 →
        classify_eeprom buf = .Found ⟨eepromWidth buf, eepromHeight buf,
          buf.getD 4 0, buf.getD 5 0, buf.getD 6 0⟩)) ∧
    (∀ info : EepromInfo,
      (info.display_variant = 24 →
        info.display_spec = some (.Jd79668 info.width info.height)) ∧
      (info.display_variant ≠ 24 → info.display_spec = none)) := by
  refine ⟨?_, rfl, ?_, ?_⟩
  · intro buf h
    simp [classify_eeprom, blank_of_all_blank h]
  · intro buf h
    have hblank := not_blank_of_witness h
    constructor
    · intro hbad
      by_cases hwh : eepromWidth buf = 0 ∨ eepromHeight buf = 0 ∨
          eepromWidth buf = 65535 ∨ eepromHeight buf = 65535
      · refine ⟨"width/height out of range (width=" ++
          toString (eepromWidth buf) ++ ", height=" ++
          toString (eepromHeight buf) ++ ")", ?_⟩
        simp [classify_eeprom, hblank, parse_eeprom, hwh]
      · have hdv : buf.getD 6 0 = 255 := by tauto
        rw [List.getD_eq_getElem?_getD] at hdv
        refine ⟨"display variant invalid (255)", ?_⟩
        simp [classify_eeprom, hblank, parse_eeprom, hwh, hdv]
    · intro h1 h2 h3 h4 h5
      have hwh : ¬ (eepromWidth buf = 0 ∨ eepromHeight buf = 0 ∨
          eepromWidth buf = 65535 ∨ eepromHeight buf = 65535) := by tauto
      rw [List.getD_eq_getElem?_getD] at h5
      simp [classify_eeprom, hblank, parse_eeprom, hwh, h5]
  · intro info
    constructor
    · intro h
      simp [EepromInfo.display_spec, h]
    · intro h
      simp [EepromInfo.display_spec, h]

theorem eeprom_classification_witness :
    classify_eeprom (List.replicate 29 1) =
      .Found ⟨257, 257, 1, 1, 1⟩ ∧
    (∃ r, classify_eeprom ([0, 0, 1, 1] ++ List.replicate 25 1) =
      .Invalid r) := by
  constructor
  · have := ((eeprom_classification.2.2.1 (List.replicate 29 1)
      (by decide)).2 (by decide) (by decide) (by decide) (by decide)
      (by decide))
    simpa using this
  · exact (eeprom_classification.2.2.1 ([0, 0, 1, 1] ++ List.replicate 25 1)
      (by decide)).1 (by decide)

/-- C10: the blank-EEPROM check is per-byte — any 29-byte buffer whose
bytes are each 0x00 or 0xFF, including mixtures whose parsed width, height
or display variant would fail validation, is classified Blank (never
Invalid) because the blank check runs before parsing. -/
theorem eeprom_blank_per_byte :
    (∀ buf : List Nat, (∀ b ∈ buf, b = 0x00 ∨ b = 0xFF) →
      classify_eeprom buf = .Blank) ∧
    mixedBuf.length = 29 ∧
    classify_eeprom mixedBuf = .Blank ∧
    (∃ r, parse_eeprom mixedBuf = .error r) := by
  refine ⟨?_, rfl, rfl, ⟨_, rfl⟩⟩
  intro buf h
  have h' : ∀ b ∈ buf, b = 0xFF ∨ b = 0x00 := by
    intro b hb
    rcases h b hb with h' | h' <;> simp [h']
  simp [classify_eeprom, blank_of_all_blank h']

theorem eeprom_blank_per_byte_witness :
    classify_eeprom (List.replicate 29 255) = .Blank :=
  eeprom_blank_per_byte.1 (List.replicate 29 255) (by decide)

/-- C5: show(image) fails with the uninitialized error whenever the driver
is not initialized, for every image; when initialized it fails with the
resolution-mismatch error carrying the expected (configured) and found
(image) resolutions whenever they differ; in both failure cases the
hardware state (interaction counter and trace) is left exactly as it was —
nothing is sent to the device. -/
theorem show_guards :
    (∀ (env : HwEnv) (d : Driver) (img : InkyImage) (s : HwState),
      d.initialized = false →
        showImage env d img s = (.error .Uninitialized, s)) ∧
    (∀ (env : HwEnv) (d : Driver) (img : InkyImage) (s : HwState),
      d.initialized = true → img.resolution ≠ d.display_res →
        showImage env d img s =
          (.error (.UnsupportedResolution d.display_res img.resolution), s)) := by
  constructor
  · intro env d img s h
    simp [showImage, h]
  · intro env d img s h1 h2
    simp [showImage, h1, h2]

theorem show_guards_witness :
    showImage envReady dFresh ⟨⟨400, 300⟩, []⟩ s0 =
      (.error .Uninitialized, s0) ∧
    showImage envReady dInited ⟨⟨100, 100⟩, []⟩ s0 =
      (.error (.UnsupportedResolution ⟨400, 300⟩ ⟨100, 100⟩), s0) :=
  ⟨show_guards.1 envReady dFresh ⟨⟨400, 300⟩, []⟩ s0 rfl,
   show_guards.2 envReady dInited ⟨⟨100, 100⟩, []⟩ s0 rfl (by decide)⟩

/-- C6 counterexample: a driver that is already initialized, run through a
failing initialize (the very first GPIO interaction errors), returns the
error but is left Initialized, not Uninitialized — refuting "leaves the
driver state Uninitialized ... for every starting state of the driver". -/
theorem init_fail_keeps_initialized :
    (initDriver envFail dInited s0).1 = .error (.GpioError "gpio failure") ∧
    ((initDriver envFail dInited s0).2.1).initialized = true ∧
    dInited.initialized = true :=
  ⟨rfl, rfl, rfl⟩

/-- C6 (amended): initialize marks the driver Initialized only when the
whole reset/busy-wait/command sequence succeeds; if any GPIO or SPI step
fails it aborts immediately, returns that error, and leaves the driver
state unchanged — in particular a driver that was Uninitialized remains
Uninitialized (no partial-success state). -/
theorem init_marks_and_preserves :
    (∀ (env : HwEnv) (d : Driver) (s : HwState),
      (initDriver env d s).1 = .ok () →
        ((initDriver env d s).2.1).initialized = true) ∧
    (∀ (env : HwEnv) (d : Driver) (s : HwState) (e : InkyError),
      (initDriver env d s).1 = .error e → (initDriver env d s).2.1 = d) ∧
    (∀ (env : HwEnv) (d : Driver) (s : HwState) (e : InkyError),
      d.initialized = false → (initDriver env d s).1 = .error e →
        ((initDriver env d s).2.1).initialized = false) := by
  refine ⟨?_, ?_, ?_⟩
  · intro env d s h
    rcases hseq : initSeq env s with ⟨r, s'⟩
    cases r with
    | ok a => simp [initDriver, hseq]
    | error e => simp [initDriver, hseq] at h
  · intro env d s e h
    rcases hseq : initSeq env s with ⟨r, s'⟩
    cases r with
    | ok a => simp [initDriver, hseq] at h
    | error e' => simp [initDriver, hseq]
  · intro env d s e hinit h
    rcases hseq : initSeq env s with ⟨r, s'⟩
    cases r with
    | ok a => simp [initDriver, hseq] at h
    | error e' => simp [initDriver, hseq, hinit]

theorem init_marks_and_preserves_witness :
    (initDriver envFail dFresh s0).2.1 = dFresh ∧
    ((initDriver envFail dFresh s0).2.1).initialized = false ∧
    ((initDriver envReady dFresh s0).2.1).initialized = true :=
  ⟨init_marks_and_preserves.2.1 envFail dFresh s0
      (.GpioError "gpio failure") rfl,
   init_marks_and_preserves.2.2 envFail dFresh s0
      (.GpioError "gpio failure") rfl rfl,
   init_marks_and_preserves.1 envReady dFresh s0 rfl⟩

theorem quantization_idempotent_witness :
    (∃ p, inky_lookup (inky_index_of ⟨200, 190, 10⟩) = some p ∧
      inky_index_of p = inky_index_of ⟨200, 190, 10⟩) ∧
    ∃ p, mono_lookup (mono_index_of ⟨200, 190, 10⟩) = some p ∧
      mono_index_of p = mono_index_of ⟨200, 190, 10⟩ :=
  ⟨quantization_idempotent.1 ⟨200, 190, 10⟩ (by decide) (by decide) (by decide),
   quantization_idempotent.2 ⟨200, 190, 10⟩ (by decide) (by decide) (by decide)⟩

theorem busyWaitGo_timeout {env : HwEnv} (t : Nat)
    (hbusy : ∀ n, env n = .ok .Inactive) :
    ∀ (fuel k : Nat) (s : HwState),
      (busyWaitGo t env fuel k s).1 = .error (.BusyTimeout t) := by
  intro fuel
  induction fuel with
  | zero => intro k s; rfl
  | succ fuel ih =>
    intro k s
    by_cases hlt : 10 * k < t
    · simp [busyWaitGo, hlt, hwOp, hbusy s.counter, ih]
    · simp [busyWaitGo, hlt]

theorem busyWaitGo_ready {env : HwEnv} (t : Nat) :
    ∀ (i fuel k : Nat) (s : HwState), i < fuel → 10 * (k + i) < t →
      (∀ j, j < i → env (s.counter + j) = .ok .Inactive) →
      env (s.counter + i) = .ok .Active →
      (busyWaitGo t env fuel k s).1 = .ok () := by
  intro i
  induction i with
  | zero =>
    intro fuel k s hfuel hlt _ hact
    match fuel, hfuel with
    | fuel + 1, _ =>
      have hact' : env s.counter = .ok .Active := by simpa using hact
      simp [busyWaitGo, show 10 * k < t by omega, hwOp, hact']
  | succ i ih =>
    intro fuel k s hfuel hlt hinact hact
    match fuel, hfuel with
    | fuel + 1, hfuel =>
      have h0 : env s.counter = .ok .Inactive := by
        simpa using hinact 0 (by omega)
      simp only [busyWaitGo, show 10 * k < t by omega, if_pos, hwOp, h0]
      exact ih fuel (k + 1) ⟨s.counter + 1, _⟩ (by omega) (by omega)
        (fun j hj => by
          have := hinact (j + 1) (by omega)
          simpa [Nat.add_assoc, Nat.add_comm 1 j] using this)
        (by
          have := hact
          simpa [Nat.add_assoc, Nat.add_comm 1 i] using this)

/-- C7: busy_wait polls the busy line on a fixed 10ms interval (modelled as
one 10ms sleep per unready poll) and succeeds as soon as the line reports
ready — a line ready at the first poll returns success immediately, with
exactly one busy-read and no sleep added to the trace — and when the line
never reports ready it fails with a busy-timeout error carrying the given
timeout once the elapsed time (10ms per completed sleep) reaches the
timeout. -/
theorem busy_wait_polls :
    (∀ (env : HwEnv) (t : Nat) (s : HwState), 0 < t →
      env s.counter = .ok .Active →
      busyWait t env s = (.ok (), ⟨s.counter + 1, s.trace ++ [.busyRead]⟩)) ∧
    (∀ (env : HwEnv) (t : Nat) (s : HwState) (i : Nat), 10 * i < t →
      (∀ j, j < i → env (s.counter + j) = .ok .Inactive) →
      env (s.counter + i) = .ok .Active →
      (busyWait t env s).1 = .ok ()) ∧
    (∀ (env : HwEnv) (t : Nat) (s : HwState), (∀ n, env n = .ok .Inactive) →
      (busyWait t env s).1 = .error (.BusyTimeout t)) := by
  refine ⟨?_, ?_, ?_⟩
  · intro env t s ht hready
    match t, ht with
    | t + 1, _ =>
      simp [busyWait, busyWaitGo, hwOp, hready]
  · intro env t s i hlt hinact hact
    exact busyWaitGo_ready t i (t + 1) 0 s (by omega) (by omega) hinact hact
  · intro env t s hbusy
    exact busyWaitGo_timeout t hbusy (t + 1) 0 s

theorem busy_wait_polls_witness :
    busyWait 1000 envReady s0 = (.ok (), ⟨1, [.busyRead]⟩) ∧
    (busyWait 20 envBusy s0).1 = .error (.BusyTimeout 20) :=
  ⟨busy_wait_polls.1 envReady 1000 s0 (by decide) rfl,
   busy_wait_polls.2.2 envBusy 20 s0 (fun _ => rfl)⟩

/-- C8 (code bug): prepare and prepare_dither compare the input resolution
only after truncating the u32 dimensions with `as u16`, so a 65936x300
raster collides with the 400x300 target and is accepted (then implicitly
cropped downstream) instead of failing with a resolution-mismatch error,
contradicting the code's own comment and the spec's "no implicit
resize/crop"; honestly mismatched (sub-65536) inputs do fail with the
error carrying both resolutions, and a matching input proceeds to
quantization. -/
theorem prepare_truncation_bug :
    (prepare pp400 hugeRaster).isOk = true ∧
    (prepare_dither pp400 hugeRaster).isOk = true ∧
    hugeRaster.width ≠ pp400.desired_res.width ∧
    prepare pp400 smallRaster =
      .error (.UnsupportedResolution ⟨400, 300⟩ ⟨100, 100⟩) ∧
    prepare_dither pp400 smallRaster =
      .error (.UnsupportedResolution ⟨400, 300⟩ ⟨100, 100⟩) ∧
    (prepare pp400 okRaster).isOk = true :=
  ⟨rfl, rfl, by decide, rfl, rfl, rfl⟩
